import Mathlib

/-!
Shallow embedding of the Discord thread tracker worker (src/index.js).

The worker periodically clears two D1 tables, fetches guild members and
active threads from the Discord REST API, normalizes each thread into a
bound row, upserts it, and synchronizes forum-channel tag taxonomies.
External effects (REST calls, D1 statements) are modelled by an oracle
that fixes the outcome of every outbound call; JavaScript truthiness and
control flow are modelled faithfully.
-/

namespace ThreadTracker

/-- A Discord user object as it appears inside a guild member record. -/
structure MemberUser where
  id : String
  username : String
deriving Repr, DecidableEq

/-- A guild member record: the user field may be absent, and the per-guild
nickname may be absent (null) or any string, including the empty string. -/
structure GuildMember where
  user : Option MemberUser
  nick : Option String
deriving Repr, DecidableEq

/-- One response of the paginated guild-members endpoint: an array of
members, a non-array value (coerced to an empty list by the code), or a
thrown error carrying a message. -/
inductive PageResponse where
  | arr (members : List GuildMember)
  | nonArray
  | failure (msg : String)
deriving Repr, DecidableEq

/-- The member map is a JavaScript object: an insertion-ordered list of
key-value pairs with overwrite-on-assign semantics. -/
def MM := List (String × String)

/-- Property read on a JavaScript object: the value at the key, if bound. -/
def objGet : List (String × String) → String → Option String
  | [], _ => none
  | (k, v) :: rest, key => if k = key then some v else objGet rest key

/-- Property assignment on a JavaScript object: overwrite in place if the
key is bound, otherwise append. -/
def objSet : List (String × String) → String → String → List (String × String)
  | [], key, val => [(key, val)]
  | (k, v) :: rest, key, val =>
    if k = key then (key, val) :: rest else (k, v) :: objSet rest key val

/-- The expression member.nick or-else member.user.username: the nickname
wins unless it is absent or empty (JavaScript truthiness on strings). -/
def displayName (nick : Option String) (username : String) : String :=
  match nick with
  | some n => if n = "" then username else n
  | none => username

/-- The loop storing one page of members into the map: members without a
user field are skipped; the stored value is the display name. -/
def addMembers (m : List (String × String)) : List GuildMember → List (String × String)
  | [] => m
  | gm :: rest =>
    match gm.user with
    | some u => addMembers (objSet m u.id (displayName gm.nick u.username)) rest
    | none => addMembers m rest

/-- A request issued to the guild-members endpoint: the limit query
parameter and the after cursor. -/
structure MemberRequest where
  limit : Nat
  after : String
deriving Repr, DecidableEq

/-- Whether the pagination loop stops after consuming this page: it stops
on a thrown call, a non-array response, an empty page, a page whose last
member lacks a user field (the cursor update throws and is caught by the
same handler as a failed call), or a page shorter than the 1000 limit. -/
def pageStops : PageResponse → Bool
  | .failure _ => true
  | .nonArray => true
  | .arr ms =>
    match ms.getLast? with
    | none => true
    | some lastMem =>
      match lastMem.user with
      | none => true
      | some _ => ms.length < 1000

/-- The pagination loop of fetchAllGuildMembers. The remote is a stream of
page responses indexed by page number; fuel bounds the number of
iterations modelled (the loop itself is unbounded) and exhausting it
returns the accumulated state unchanged. Every error is caught inside the
loop, so the result is always a map plus the list of requests issued. -/
def fetchLoopF (stream : Nat → PageResponse) :
    Nat → Nat → String → List (String × String) → List MemberRequest →
    List (String × String) × List MemberRequest
  | 0, _, _, m, reqs => (m, reqs)
  | fuel + 1, idx, lastId, m, reqs =>
    let reqs' := reqs ++ [⟨1000, lastId⟩]
    match stream idx with
    | .failure _ => (m, reqs')
    | .nonArray => (m, reqs')
    | .arr ms =>
      match ms.getLast? with
      | none => (m, reqs')
      | some lastMem =>
        match lastMem.user with
        | none => (m, reqs')
        | some u =>
          let m' := addMembers m ms
          if ms.length < 1000 then (m', reqs')
          else fetchLoopF stream fuel (idx + 1) u.id m' reqs'

/-- fetchAllGuildMembers: starts from cursor "0" with an empty map and
returns the accumulated map; it never throws. -/
def fetchAllGuildMembers (stream : Nat → PageResponse) (fuel : Nat) :
    List (String × String) :=
  (fetchLoopF stream fuel 0 "0" [] []).1

/-- A JSON-representable value, the shape of the structured payloads on a
raw thread (available_tags, applied_tags, thread_metadata). -/
inductive Json where
  | null
  | bool (b : Bool)
  | num (n : Int)
  | str (s : String)
  | arr (xs : List Json)
  | obj (fields : List (String × Json))

mutual

/-- JSON.stringify on a JSON-representable value; total on this model
because such values are acyclic by construction. -/
def stringify : Json → String
  | .null => "null"
  | .bool true => "true"
  | .bool false => "false"
  | .num n => toString n
  | .str s => "\x22" ++ s ++ "\x22"
  | .arr xs => "[" ++ stringifyList xs ++ "]"
  | .obj fs => "\x7b" ++ stringifyFields fs ++ "\x7d"

/-- Comma-joined serialization of an array body. -/
def stringifyList : List Json → String
  | [] => ""
  | [x] => stringify x
  | x :: y :: rest => stringify x ++ "," ++ stringifyList (y :: rest)

/-- Comma-joined serialization of an object body. -/
def stringifyFields : List (String × Json) → String
  | [] => ""
  | [(k, v)] => "\x22" ++ k ++ "\x22:" ++ stringify v
  | (k, v) :: f :: rest =>
    "\x22" ++ k ++ "\x22:" ++ stringify v ++ "," ++ stringifyFields (f :: rest)

end

/-- JavaScript truthiness of a JSON value: null, false, 0 and the empty
string are falsy; arrays and objects are always truthy. -/
def jsTruthy : Json → Bool
  | .null => false
  | .bool b => b
  | .num n => n ≠ 0
  | .str s => s ≠ ""
  | .arr _ => true
  | .obj _ => true

/-- A raw thread object as returned by the active-threads endpoint; every
field except id and name may be absent. -/
structure RawThread where
  id : String
  name : String
  topic : Option String
  owner_id : Option String
  parent_id : Option String
  member_count : Option Int
  message_count : Option Int
  available_tags : Option Json
  applied_tags : Option Json
  thread_metadata : Option Json

/-- The expression x or-else null on an optional string: absent and the
empty string both bind null. -/
def jsStr : Option String → Option String
  | none => none
  | some v => if v = "" then none else some v

/-- The expression x then JSON.stringify x else null on an optional
structured payload: absent or falsy binds null, otherwise the serialized
text. -/
def jsonField : Option Json → Option String
  | none => none
  | some v => if jsTruthy v then some (stringify v) else none

/-- Owner nickname resolution in processThread: set only when owner_id is
truthy and the member-map entry for it is truthy, else null. -/
def ownerNick (oid : Option String) (m : List (String × String)) : Option String :=
  match oid with
  | none => none
  | some o =>
    if o = "" then none
    else
      match objGet m o with
      | none => none
      | some v => if v = "" then none else some v

/-- The eleven values bound to the thread upsert statement, i.e. one row
of the discord_threads table. -/
structure BoundRow where
  thread_id : String
  thread_name : String
  topic : Option String
  owner_id : Option String
  owner_nickname : Option String
  parent_id : Option String
  member_count : Option Int
  message_count : Option Int
  available_tags : Option String
  applied_tags : Option String
  thread_metadata : Option String
deriving Repr, DecidableEq

/-- The normalization step of processThread: destructure the raw thread,
resolve the owner nickname from the member map, and build the bound
values. Pure and total. -/
def normalizeThread (t : RawThread) (m : List (String × String)) : BoundRow :=
  { thread_id := t.id
    thread_name := t.name
    topic := jsStr t.topic
    owner_id := t.owner_id
    owner_nickname := ownerNick t.owner_id m
    parent_id := jsStr t.parent_id
    member_count := t.member_count
    message_count := t.message_count
    available_tags := jsonField t.available_tags
    applied_tags := jsonField t.applied_tags
    thread_metadata := jsonField t.thread_metadata }

/-- One row of the discord_channel_tags table. -/
structure TagRow where
  parent_id : String
  tag_id : String
  tag_name : String
  tag_emoji : Option String
deriving Repr, DecidableEq

/-- The relational store: the two D1 tables, as ordered lists of rows. -/
structure DB where
  threads : List BoundRow
  tags : List TagRow
deriving Repr, DecidableEq

/-- INSERT .. ON CONFLICT (thread_id) DO UPDATE: replace the row with the
same key in place, else append. -/
def upsertThread : List BoundRow → BoundRow → List BoundRow
  | [], r => [r]
  | row :: rest, r =>
    if row.thread_id = r.thread_id then r :: rest else row :: upsertThread rest r

/-- INSERT .. ON CONFLICT (parent_id, tag_id) DO UPDATE: replace the row
with the same composite key in place, else append. -/
def upsertTag : List TagRow → TagRow → List TagRow
  | [], r => [r]
  | row :: rest, r =>
    if row.parent_id = r.parent_id ∧ row.tag_id = r.tag_id then r :: rest
    else row :: upsertTag rest r

/-- The emoji object on a forum tag: its name may be absent. -/
structure TagEmoji where
  name : Option String
deriving Repr, DecidableEq

/-- One entry of the available_tags taxonomy of a forum channel. -/
structure ForumTag where
  id : String
  name : String
  emoji : Option TagEmoji
deriving Repr, DecidableEq

/-- The emoji extraction in processChannelTags: emoji then (emoji.name
or-else null) else null; an absent or empty name yields null. -/
def emojiInfo : Option TagEmoji → Option String
  | none => none
  | some e =>
    match e.name with
    | none => none
    | some s => if s = "" then none else some s

/-- The channel object returned by the channel endpoint; available_tags
may be absent (non-forum channel). -/
structure ChannelBody where
  available_tags : Option (List ForumTag)
deriving Repr, DecidableEq

/-- The response of the active-threads endpoint: the threads field may be
absent. -/
structure ActiveThreadsResp where
  threads : Option (List RawThread)

/-- The outcome of every outbound call a run can make, fixed up front:
whether each DELETE throws, the member-page stream (with the fuel bound
used to model its unbounded loop), the active-threads fetch, the per-
thread-id upsert outcome, the per-channel-id channel fetch, and the
per-(channel, tag) upsert outcome. A some msg means the call throws with
that message. -/
structure Oracle where
  deleteThreadsFails : Option String
  deleteTagsFails : Option String
  memberPages : Nat → PageResponse
  memberFuel : Nat
  fetchThreads : Except String ActiveThreadsResp
  storeThread : String → Option String
  channelResp : String → Except String (Option ChannelBody)
  storeTag : String → String → Option String

/-- The clearing step at the start of handleScheduled: DELETE FROM
discord_threads, then DELETE FROM discord_channel_tags, inside one
try/catch whose handler only logs — a failure leaves the remaining
statements unrun and the run continues. Each statement is atomic. -/
def clearPhase (o : Oracle) (db : DB) : DB :=
  match o.deleteThreadsFails with
  | some _ => db
  | none =>
    let db1 : DB := { db with threads := [] }
    match o.deleteTagsFails with
    | some _ => db1
    | none => { db1 with tags := [] }

/-- processThread: normalize the raw thread against the member map and
run the upsert statement; a store failure is logged and re-thrown to the
caller, so the result is the error message or the updated store. -/
def processThread (o : Oracle) (t : RawThread) (m : List (String × String))
    (db : DB) : Except String DB :=
  match o.storeThread t.id with
  | some msg => .error msg
  | none => .ok { db with threads := upsertThread db.threads (normalizeThread t m) }

/-- Adding to the uniqueParentIds set: a JavaScript Set keeps insertion
order and ignores re-inserts. -/
def addUnique (ps : List String) (p : String) : List String :=
  if p ∈ ps then ps else ps ++ [p]

/-- The outcome of the per-thread loop of handleScheduled: either it ran
to the end, or a processThread call threw, aborting the loop with the
count, parent set and store as they stood at the throw. -/
inductive LoopOut where
  | done (n : Nat) (parents : List String) (db : DB)
  | threw (n : Nat) (parents : List String) (db : DB) (msg : String)

/-- The per-thread loop of handleScheduled: for each thread it awaits
processThread, then records a truthy parent_id into the unique set, then
increments threadsProcessed. There is no per-item handler: an exception
propagates and aborts the loop. -/
def threadLoop (o : Oracle) (m : List (String × String)) :
    List RawThread → Nat → List String → DB → LoopOut
  | [], n, ps, db => .done n ps db
  | t :: rest, n, ps, db =>
    match processThread o t m db with
    | .error msg => .threw n ps db msg
    | .ok db' =>
      let ps' :=
        match t.parent_id with
        | some p => if p = "" then ps else addUnique ps p
        | none => ps
      threadLoop o m rest (n + 1) ps' db'

/-- The per-tag loop for one channel in processChannelTags: upsert each
tag row; a failing statement throws out of this loop (the per-channel
handler catches it), leaving this channel with only the rows stored
before the failure. -/
def storeTagsLoop (o : Oracle) (channelId : String) : List ForumTag → DB → DB
  | [], db => db
  | tag :: rest, db =>
    match o.storeTag channelId tag.id with
    | some _ => db
    | none =>
      storeTagsLoop o channelId rest
        { db with
          tags := upsertTag db.tags
            ⟨channelId, tag.id, tag.name, emojiInfo tag.emoji⟩ }

/-- One iteration of processChannelTags: fetch the channel; if it is
truthy, has an available_tags field and that list is non-empty, store its
tags; any failure in this iteration is caught, logged, and skipped. -/
def channelStep (o : Oracle) (db : DB) (channelId : String) : DB :=
  match o.channelResp channelId with
  | .error _ => db
  | .ok none => db
  | .ok (some body) =>
    match body.available_tags with
    | none => db
    | some tags => if 0 < tags.length then storeTagsLoop o channelId tags db else db

/-- processChannelTags: iterate the unique parent channel ids in order,
each in its own try/catch, so one channel never stops the next. It only
writes the store; it cannot touch the run result. -/
def processChannelTags (o : Oracle) (channelIds : List String) (db : DB) : DB :=
  channelIds.foldl (channelStep o) db

/-- The aggregate result a run returns: the success flag, the processed
counter, and the messages of the recorded errors (the code only ever
pushes single-field message objects). -/
structure RunResult where
  success : Bool
  threadsProcessed : Nat
  errors : List String
deriving Repr, DecidableEq

/-- handleScheduled: clear both tables (failure tolerated), build the
member map, fetch the active threads, run the per-thread loop, then the
tag synchronizer. Any exception escaping to the top-level handler sets
success to false and records its message; there is no handler between the
per-thread statements and the top, so a thread failure aborts the batch
and skips the tag phase. -/
def handleScheduled (o : Oracle) (db : DB) : RunResult × DB :=
  let db1 := clearPhase o db
  let m := fetchAllGuildMembers o.memberPages o.memberFuel
  match o.fetchThreads with
  | .error msg => (⟨false, 0, [msg]⟩, db1)
  | .ok resp =>
    match resp.threads with
    | none => (⟨true, 0, []⟩, db1)
    | some ts =>
      if 0 < ts.length then
        match threadLoop o m ts 0 [] db1 with
        | .threw n _ db2 msg => (⟨false, n, [msg]⟩, db2)
        | .done n ps db2 =>
          let db3 := if 0 < ps.length then processChannelTags o ps db2 else db2
          (⟨true, n, []⟩, db3)
      else (⟨true, 0, []⟩, db1)

/-- The thread rows produced by a run of the per-thread loop over the
given threads, starting from the given rows: one upsert per thread, in
order. Used to characterize threadLoop. -/
def rowFold (m : List (String × String)) : List RawThread → List BoundRow → List BoundRow
  | [], rs => rs
  | t :: ts, rs => rowFold m ts (upsertThread rs (normalizeThread t m))

/-- The unique parent ids accumulated by the per-thread loop over the
given threads. Used to characterize threadLoop. -/
def parentFold : List RawThread → List String → List String
  | [], ps => ps
  | t :: ts, ps =>
    parentFold ts
      (match t.parent_id with
       | some p => if p = "" then ps else addUnique ps p
       | none => ps)

/-- Reading back the key just assigned on a JavaScript object yields the
assigned value. -/
theorem objGet_objSet (m : List (String × String)) (k v : String) :
    objGet (objSet m k v) k = some v := by
  induction m with
  | nil => simp [objSet, objGet]
  | cons kv rest ih =>
    obtain ⟨k', v'⟩ := kv
    by_cases h : k' = k
    · simp [objSet, objGet, h]
    · simp [objSet, objGet, h, ih]

/-- The per-channel tag loop writes only the tag table. -/
theorem storeTagsLoop_threads (o : Oracle) (c : String) (tags : List ForumTag)
    (db : DB) : (storeTagsLoop o c tags db).threads = db.threads := by
  induction tags generalizing db with
  | nil => rfl
  | cons t rest ih =>
    simp only [storeTagsLoop]
    cases o.storeTag c t.id with
    | some msg => rfl
    | none => rw [ih]

/-- One tag-synchronizer iteration writes only the tag table. -/
theorem channelStep_threads (o : Oracle) (db : DB) (c : String) :
    (channelStep o db c).threads = db.threads := by
  unfold channelStep
  split
  · rfl
  · rfl
  · split
    · rfl
    · split
      · exact storeTagsLoop_threads _ _ _ _
      · rfl

/-- The tag synchronizer writes only the tag table: the thread table is
untouched. -/
theorem processChannelTags_threads (o : Oracle) (ids : List String) (db : DB) :
    (processChannelTags o ids db).threads = db.threads := by
  induction ids generalizing db with
  | nil => rfl
  | cons c rest ih =>
    show (processChannelTags o rest (channelStep o db c)).threads = db.threads
    rw [ih, channelStep_threads]

/-- When every store call of the batch succeeds, the per-thread loop runs
to the end: the counter advances by the batch length, the parent set and
the thread table are the corresponding folds, and the tag table is
untouched. -/
theorem threadLoop_all_ok (o : Oracle) (m : List (String × String))
    (ts : List RawThread) :
    ∀ n ps db, (∀ t ∈ ts, o.storeThread t.id = none) →
      threadLoop o m ts n ps db =
        .done (n + ts.length) (parentFold ts ps) ⟨rowFold m ts db.threads, db.tags⟩ := by
  induction ts with
  | nil =>
    intro n ps db _
    simp [threadLoop, rowFold, parentFold]
  | cons t rest ih =>
    intro n ps db h
    have ht : o.storeThread t.id = none := h t (by simp)
    have hrest : ∀ t' ∈ rest, o.storeThread t'.id = none := by
      intro t' ht'
      exact h t' (by simp [ht'])
    simp only [threadLoop, processThread, ht]
    rw [ih (n + 1) _ _ hrest]
    have hn : n + 1 + rest.length = n + (t :: rest).length := by
      simp [List.length_cons]
      omega
    rw [hn]
    rfl

/-- When the first failing store call of the batch is the one for bad,
the loop aborts there: the counter, parent set and thread table hold the
contributions of the threads before it, and the error message propagates. -/
theorem threadLoop_first_fail (o : Oracle) (m : List (String × String))
    (pre : List RawThread) (bad : RawThread) (post : List RawThread) :
    ∀ n ps db msg, (∀ t ∈ pre, o.storeThread t.id = none) →
      o.storeThread bad.id = some msg →
      threadLoop o m (pre ++ bad :: post) n ps db =
        .threw (n + pre.length) (parentFold pre ps) ⟨rowFold m pre db.threads, db.tags⟩ msg := by
  induction pre with
  | nil =>
    intro n ps db msg _ hbad
    simp [threadLoop, processThread, hbad, rowFold, parentFold]
  | cons t rest ih =>
    intro n ps db msg h hbad
    have ht : o.storeThread t.id = none := h t (by simp)
    have hrest : ∀ t' ∈ rest, o.storeThread t'.id = none := by
      intro t' ht'
      exact h t' (by simp [ht'])
    simp only [List.cons_append, threadLoop, processThread, ht, List.append_eq]
    rw [ih (n + 1) _ _ msg hrest hbad]
    have hn : n + 1 + rest.length = n + (t :: rest).length := by
      simp [List.length_cons]
      omega
    rw [hn]
    rfl

/-- The per-thread loop depends on the oracle only through the store
outcome of the thread upsert statement. -/
theorem threadLoop_storeEq (o o' : Oracle) (h : o.storeThread = o'.storeThread)
    (m : List (String × String)) (ts : List RawThread) :
    ∀ n ps db, threadLoop o m ts n ps db = threadLoop o' m ts n ps db := by
  induction ts with
  | nil => intro n ps db; rfl
  | cons t rest ih =>
    intro n ps db
    simp only [threadLoop, processThread, h]
    cases o'.storeThread t.id with
    | some msg => rfl
    | none => exact ih _ _ _

/-- A key is present after an upsert exactly when it is the upserted key
or was present before. -/
theorem mem_upsertThread_keys (rows : List BoundRow) (r : BoundRow) (id : String) :
    id ∈ (upsertThread rows r).map BoundRow.thread_id ↔
      id = r.thread_id ∨ id ∈ rows.map BoundRow.thread_id := by
  induction rows with
  | nil => simp [upsertThread]
  | cons row rest ih =>
    by_cases h : row.thread_id = r.thread_id
    · have hu : upsertThread (row :: rest) r = r :: rest := by
        simp [upsertThread, h]
      rw [hu, List.map_cons, List.mem_cons, List.map_cons, List.mem_cons, h]
      tauto
    · have hu : upsertThread (row :: rest) r = row :: upsertThread rest r := by
        simp [upsertThread, h]
      rw [hu, List.map_cons, List.mem_cons, ih, List.map_cons, List.mem_cons]
      tauto

/-- An upsert never duplicates a key. -/
theorem upsertThread_nodup (rows : List BoundRow) (r : BoundRow)
    (h : (rows.map BoundRow.thread_id).Nodup) :
    ((upsertThread rows r).map BoundRow.thread_id).Nodup := by
  induction rows with
  | nil => simp [upsertThread]
  | cons row rest ih =>
    simp only [List.map_cons, List.nodup_cons] at h
    by_cases hk : row.thread_id = r.thread_id
    · have hu : upsertThread (row :: rest) r = r :: rest := by
        simp [upsertThread, hk]
      rw [hu, List.map_cons, List.nodup_cons]
      refine ⟨?_, h.2⟩
      rw [← hk]
      exact h.1
    · have hu : upsertThread (row :: rest) r = row :: upsertThread rest r := by
        simp [upsertThread, hk]
      rw [hu, List.map_cons, List.nodup_cons]
      refine ⟨?_, ih h.2⟩
      rw [mem_upsertThread_keys]
      push_neg
      exact ⟨hk, h.1⟩

/-- A key appears among the rows produced by the batch fold exactly when
it was already present or is the id of one of the batch threads. -/
theorem mem_rowFold_keys (m : List (String × String)) (ts : List RawThread) :
    ∀ rs id, id ∈ (rowFold m ts rs).map BoundRow.thread_id ↔
      id ∈ rs.map BoundRow.thread_id ∨ id ∈ ts.map RawThread.id := by
  induction ts with
  | nil => intro rs id; simp [rowFold]
  | cons t rest ih =>
    intro rs id
    simp only [rowFold]
    rw [ih, mem_upsertThread_keys]
    have hid : (normalizeThread t m).thread_id = t.id := rfl
    rw [hid, List.map_cons, List.mem_cons]
    tauto

/-- The batch fold preserves key uniqueness of the thread table. -/
theorem rowFold_nodup (m : List (String × String)) (ts : List RawThread) :
    ∀ rs, (rs.map BoundRow.thread_id).Nodup →
      ((rowFold m ts rs).map BoundRow.thread_id).Nodup := by
  induction ts with
  | nil => intro rs h; exact h
  | cons t rest ih =>
    intro rs h
    exact ih _ (upsertThread_nodup _ _ h)

/-- Every request issued by the pagination loop beyond those already
recorded carries the fixed page size 1000. -/
theorem fetchLoopF_limits (stream : Nat → PageResponse) :
    ∀ fuel idx lastId m reqs q,
      q ∈ (fetchLoopF stream fuel idx lastId m reqs).2 →
      q ∈ reqs ∨ q.limit = 1000 := by
  intro fuel
  induction fuel with
  | zero => intro idx lastId m reqs q hq; exact Or.inl hq
  | succ f ih =>
    intro idx lastId m reqs q hq
    have hbase : q ∈ reqs ++ [(⟨1000, lastId⟩ : MemberRequest)] → q ∈ reqs ∨ q.limit = 1000 := by
      intro hb
      rcases List.mem_append.mp hb with h | h
      · exact Or.inl h
      · simp at h
        subst h
        exact Or.inr rfl
    simp only [fetchLoopF] at hq
    split at hq
    · exact hbase hq
    · exact hbase hq
    · split at hq
      · exact hbase hq
      · split at hq
        · exact hbase hq
        · split at hq
          · exact hbase hq
          · rcases ih _ _ _ _ _ hq with h | h
            · exact hbase h
            · exact Or.inr h

/-- The pagination loop never shortens the request log. -/
theorem fetchLoopF_len (stream : Nat → PageResponse) :
    ∀ fuel idx lastId m reqs,
      reqs.length ≤ (fetchLoopF stream fuel idx lastId m reqs).2.length := by
  intro fuel
  induction fuel with
  | zero => intro idx lastId m reqs; exact Nat.le_refl _
  | succ f ih =>
    intro idx lastId m reqs
    have hb : reqs.length ≤ (reqs ++ [(⟨1000, lastId⟩ : MemberRequest)]).length := by
      simp
    simp only [fetchLoopF]
    split
    · exact hb
    · exact hb
    · split
      · exact hb
      · split
        · exact hb
        · split
          · exact hb
          · exact le_trans hb (ih _ _ _ _)

/-- With at least one unit of fuel, the loop issues at least one request. -/
theorem fetchLoopF_len_succ (stream : Nat → PageResponse) (fuel idx : Nat)
    (lastId : String) (m : List (String × String)) (reqs : List MemberRequest) :
    reqs.length + 1 ≤ (fetchLoopF stream (fuel + 1) idx lastId m reqs).2.length := by
  have hb : reqs.length + 1 ≤ (reqs ++ [(⟨1000, lastId⟩ : MemberRequest)]).length := by
    simp
  simp only [fetchLoopF]
  split
  · exact hb
  · exact hb
  · split
    · exact hb
    · split
      · exact hb
      · split
        · exact hb
        · exact le_trans hb (fetchLoopF_len stream _ _ _ _ _)

/-- One continuing iteration of the pagination loop: at a full page whose
last member carries a user, the loop records the request it made with the
fixed limit 1000 and the current cursor, stores the page into the map,
and re-enters with the cursor set to the identifier of the last member
seen. -/
theorem fetchLoopF_cont (stream : Nat → PageResponse) (fuel idx : Nat)
    (lastId : String) (m : List (String × String)) (reqs : List MemberRequest)
    (ms : List GuildMember) (lastMem : GuildMember) (u : MemberUser)
    (hp : stream idx = .arr ms) (hl : ms.getLast? = some lastMem)
    (hu : lastMem.user = some u) (hlen : ¬ ms.length < 1000) :
    fetchLoopF stream (fuel + 1) idx lastId m reqs =
      fetchLoopF stream fuel (idx + 1) u.id (addMembers m ms)
        (reqs ++ [⟨1000, lastId⟩]) := by
  conv_lhs => rw [fetchLoopF]
  simp only [hp, hl, hu, if_neg hlen]

/-- Once some page at or after the current index stops the loop, any
fuel beyond that bound yields the same result: the loop genuinely
terminates there, and the fuel is only a modelling artifact. -/
theorem fetchLoopF_stab (stream : Nat → PageResponse) :
    ∀ j idx lastId m reqs fuel, pageStops (stream (idx + j)) = true → j < fuel →
      fetchLoopF stream fuel idx lastId m reqs =
        fetchLoopF stream (j + 1) idx lastId m reqs := by
  intro j
  induction j with
  | zero =>
    intro idx lastId m reqs fuel hstop hf
    rw [Nat.add_zero] at hstop
    obtain ⟨f, rfl⟩ : ∃ f, fuel = f + 1 := ⟨fuel - 1, by omega⟩
    cases hp : stream idx with
    | failure msg => simp [fetchLoopF, hp]
    | nonArray => simp [fetchLoopF, hp]
    | arr ms =>
      simp only [pageStops, hp] at hstop
      cases hl : ms.getLast? with
      | none => simp [fetchLoopF, hp, hl]
      | some lastMem =>
        cases hu : lastMem.user with
        | none => simp [fetchLoopF, hp, hl, hu]
        | some u =>
          simp only [hl, hu] at hstop
          have hlen : ms.length < 1000 := by simpa using hstop
          simp [fetchLoopF, hp, hl, hu, hlen]
  | succ jj ihj =>
    intro idx lastId m reqs fuel hstop hf
    obtain ⟨f, rfl⟩ : ∃ f, fuel = f + 1 := ⟨fuel - 1, by omega⟩
    cases hp : stream idx with
    | failure msg => simp [fetchLoopF, hp]
    | nonArray => simp [fetchLoopF, hp]
    | arr ms =>
      cases hl : ms.getLast? with
      | none => simp [fetchLoopF, hp, hl]
      | some lastMem =>
        cases hu : lastMem.user with
        | none => simp [fetchLoopF, hp, hl, hu]
        | some u =>
          by_cases hlen : ms.length < 1000
          · simp [fetchLoopF, hp, hl, hu, hlen]
          · simp only [fetchLoopF, hp, hl, hu, if_neg hlen]
            apply ihj
            · rw [show idx + 1 + jj = idx + (jj + 1) by omega]
              exact hstop
            · omega

/-- At a page that does not stop the loop, the loop issues a further
request: with two units of fuel the request log grows by at least two,
so the loop never terminates at a non-stopping page. -/
theorem fetchLoopF_progress (stream : Nat → PageResponse) (fuel idx : Nat)
    (lastId : String) (m : List (String × String)) (reqs : List MemberRequest)
    (h : pageStops (stream idx) = false) :
    reqs.length + 2 ≤ (fetchLoopF stream (fuel + 2) idx lastId m reqs).2.length := by
  cases hp : stream idx with
  | failure msg => rw [hp] at h; simp [pageStops] at h
  | nonArray => rw [hp] at h; simp [pageStops] at h
  | arr ms =>
    rw [hp] at h
    simp only [pageStops] at h
    cases hl : ms.getLast? with
    | none => simp only [hl] at h; simp at h
    | some lastMem =>
      simp only [hl] at h
      cases hu : lastMem.user with
      | none => simp only [hu] at h; simp at h
      | some u =>
        simp only [hu] at h
        have hlen : ¬ ms.length < 1000 := by simpa using h
        rw [fetchLoopF_cont stream (fuel + 1) idx lastId m reqs ms lastMem u hp hl hu hlen]
        have hs := fetchLoopF_len_succ stream fuel (idx + 1) u.id (addMembers m ms)
          (reqs ++ [⟨1000, lastId⟩])
        simp at hs
        omega

/-- Claim C3: the member resolver never raises. When any page request
fails — whether with a Missing Access message or any other error, both of
which the code handles by the same break — the loop stops at that page
and returns exactly the map accumulated so far, and a failure on the very
first page makes fetchAllGuildMembers return the empty map without
surfacing an error to the caller. -/
theorem c3_member_fetch_absorbs_failures
    (stream : Nat → PageResponse) (fuel idx : Nat) (lastId : String)
    (m : List (String × String)) (reqs : List MemberRequest) (msg : String)
    (hfail : stream idx = .failure msg) :
    fetchLoopF stream (fuel + 1) idx lastId m reqs = (m, reqs ++ [⟨1000, lastId⟩]) ∧
      (stream 0 = .failure msg → fetchAllGuildMembers stream (fuel + 1) = []) := by
  have key : ∀ (i : Nat) (l : String) (mm : List (String × String))
      (rq : List MemberRequest) (e : String), stream i = .failure e →
      fetchLoopF stream (fuel + 1) i l mm rq = (mm, rq ++ [⟨1000, l⟩]) := by
    intro i l mm rq e hf
    conv_lhs => rw [fetchLoopF]
    simp [hf]
  refine ⟨key idx lastId m reqs msg hfail, ?_⟩
  intro h0
  unfold fetchAllGuildMembers
  rw [key 0 "0" [] [] msg h0]

/-- Witness for C3: with a stream that reports Missing Access on the
first page, the loop returns the empty accumulated map after one request. -/
theorem c3_witness :
    fetchLoopF (fun _ => PageResponse.failure "Missing Access") 1 0 "0" [] [] =
      ([], [⟨1000, "0"⟩]) ∧
    fetchAllGuildMembers (fun _ => PageResponse.failure "Missing Access") 1 = [] := by
  have h := c3_member_fetch_absorbs_failures
    (fun _ => PageResponse.failure "Missing Access") 0 0 "0" [] [] "Missing Access" rfl
  exact ⟨h.1, h.2 rfl⟩

/-- Claim C6: the member resolver requests pages of exactly limit 1000;
at a continuing page the next request uses as cursor the identifier of
the last member seen in the previous page; and the loop terminates
exactly at the stopping pages — a failed call, a zero-item or non-array
page, a page whose cursor update throws, or a page shorter than 1000:
past such a page the result is fuel-independent (the function is total
under the precondition that some page stops), while at a non-stopping
page the loop always issues a further request. -/
theorem c6_pagination
    (stream : Nat → PageResponse) (fuel idx j : Nat) (lastId : String)
    (m : List (String × String)) (reqs : List MemberRequest) :
    (∀ q ∈ (fetchLoopF stream fuel idx lastId m reqs).2, q ∈ reqs ∨ q.limit = 1000) ∧
    (∀ ms lastMem u, stream idx = .arr ms → ms.getLast? = some lastMem →
      lastMem.user = some u → ¬ ms.length < 1000 →
      fetchLoopF stream (fuel + 1) idx lastId m reqs =
        fetchLoopF stream fuel (idx + 1) u.id (addMembers m ms)
          (reqs ++ [⟨1000, lastId⟩])) ∧
    (pageStops (stream (idx + j)) = true → j < fuel →
      fetchLoopF stream fuel idx lastId m reqs =
        fetchLoopF stream (j + 1) idx lastId m reqs) ∧
    (pageStops (stream idx) = false →
      reqs.length + 2 ≤ (fetchLoopF stream (fuel + 2) idx lastId m reqs).2.length) := by
  refine ⟨fetchLoopF_limits stream fuel idx lastId m reqs, ?_, ?_, ?_⟩
  · intro ms lastMem u hp hl hu hlen
    exact fetchLoopF_cont stream fuel idx lastId m reqs ms lastMem u hp hl hu hlen
  · intro hstop hf
    exact fetchLoopF_stab stream j idx lastId m reqs fuel hstop hf
  · intro hns
    exact fetchLoopF_progress stream fuel idx lastId m reqs hns

/-- Witness for C6: a stream failing at once stops the loop with fuel one
past the stopping index, and every issued request carries limit 1000. -/
theorem c6_witness :
    (fetchLoopF (fun _ => PageResponse.failure "e") 5 0 "0" [] [] =
      fetchLoopF (fun _ => PageResponse.failure "e") 1 0 "0" [] []) ∧
    (∀ q ∈ (fetchLoopF (fun _ => PageResponse.failure "e") 5 0 "0" [] []).2,
      q ∈ ([] : List MemberRequest) ∨ q.limit = 1000) := by
  have h := c6_pagination (fun _ => PageResponse.failure "e") 5 0 0 "0" [] []
  exact ⟨h.2.2.1 rfl (by decide), h.1⟩

/-- Claim C9 counterexample: a member whose per-guild nickname is present
but is the empty string is stored under the global username, not under
the present nickname: JavaScript truthiness refutes the claim as stated. -/
theorem c9_counterexample :
    (some "" : Option String) ≠ none ∧
    objGet (addMembers [] [⟨some ⟨"u1", "globalName"⟩, some ""⟩]) "u1" =
      some "globalName" ∧ "globalName" ≠ "" := by
  refine ⟨by decide, rfl, by decide⟩

/-- Claim C9 (amended): the name stored in the member map for a member
record with a user field is the per-guild nickname when it is present and
non-empty, and otherwise the global username; an absent or empty-string
nickname falls through to the username. -/
theorem c9_display_name (m : List (String × String)) (u : MemberUser)
    (nick : Option String) :
    objGet (addMembers m [⟨some u, nick⟩]) u.id = some (displayName nick u.username) ∧
    (∀ n, nick = some n → n ≠ "" → displayName nick u.username = n) ∧
    ((nick = none ∨ nick = some "") → displayName nick u.username = u.username) := by
  refine ⟨?_, ?_, ?_⟩
  · show objGet (objSet m u.id (displayName nick u.username)) u.id = _
    exact objGet_objSet m u.id _
  · intro n hn hne
    subst hn
    simp [displayName, hne]
  · intro h
    rcases h with h | h <;> subst h <;> simp [displayName]

/-- Witness for C9: a present non-empty nickname is the stored name. -/
theorem c9_witness : displayName (some "Nick") "globalName" = "Nick" :=
  (c9_display_name [] ⟨"a", "globalName"⟩ (some "Nick")).2.1 "Nick" rfl (by decide)

/-- Claim C4 counterexample: with owner_id u1 present and found in the
member map but bound to the empty string, the normalized owner_nickname
is null rather than the found entry: truthiness filtering refutes the
claim that the nickname always equals the found map entry. -/
theorem c4_counterexample :
    objGet [("u1", "")] "u1" = some "" ∧
    (normalizeThread
        ⟨"t1", "n", none, some "u1", none, none, none, none, none, none⟩
        [("u1", "")]).owner_nickname ≠ some "" := by
  exact ⟨rfl, by decide⟩

/-- Claim C4 (amended): owner_nickname equals the member-map entry for
owner_id when owner_id is present and non-empty and the found entry is
non-empty; it is null when owner_id is absent, when the entry is missing,
or when either string is empty (truthiness); and an empty member map
always leaves the nickname null without error. -/
theorem c4_owner_nickname (t : RawThread) (m : List (String × String)) :
    (∀ oid v, t.owner_id = some oid → oid ≠ "" → objGet m oid = some v → v ≠ "" →
      (normalizeThread t m).owner_nickname = some v) ∧
    (t.owner_id = none → (normalizeThread t m).owner_nickname = none) ∧
    (∀ oid, t.owner_id = some oid → objGet m oid = none →
      (normalizeThread t m).owner_nickname = none) ∧
    (∀ oid, t.owner_id = some oid → objGet m oid = some "" →
      (normalizeThread t m).owner_nickname = none) ∧
    (normalizeThread t []).owner_nickname = none := by
  refine ⟨?_, ?_, ?_, ?_, ?_⟩
  · intro oid v hoid hne hv hvne
    show ownerNick t.owner_id m = some v
    rw [hoid]
    simp [ownerNick, hne, hv, hvne]
  · intro h
    show ownerNick t.owner_id m = none
    rw [h]
    rfl
  · intro oid hoid hnone
    show ownerNick t.owner_id m = none
    rw [hoid]
    simp [ownerNick, hnone]
  · intro oid hoid hempty
    show ownerNick t.owner_id m = none
    rw [hoid]
    simp [ownerNick, hempty]
  · show ownerNick t.owner_id [] = none
    cases t.owner_id with
    | none => rfl
    | some o => simp [ownerNick, objGet]

/-- Witness for C4: the map with entry u1 to Nick resolves a thread owned
by u1 to the nickname Nick, and an absent key resolves to null. -/
theorem c4_witness :
    (normalizeThread
        ⟨"t1", "n", none, some "u1", none, none, none, none, none, none⟩
        [("u1", "Nick")]).owner_nickname = some "Nick" ∧
    (normalizeThread
        ⟨"t1", "n", none, some "u2", none, none, none, none, none, none⟩
        [("u1", "Nick")]).owner_nickname = none := by
  constructor
  · exact (c4_owner_nickname
      ⟨"t1", "n", none, some "u1", none, none, none, none, none, none⟩
      [("u1", "Nick")]).1 "u1" "Nick" rfl (by decide) rfl (by decide)
  · exact (c4_owner_nickname
      ⟨"t1", "n", none, some "u2", none, none, none, none, none, none⟩
      [("u1", "Nick")]).2.2.1 "u2" rfl (by decide)

/-- Claim C5: a raw thread missing an optional field (topic, parent_id,
available_tags, applied_tags, thread_metadata) binds null in that field,
never an empty string or an empty serialized structure; the structured
fields are serialized to text only when present; and the two counters are
bound verbatim with no substituted default. -/
theorem c5_null_passthrough (t : RawThread) (m : List (String × String)) :
    (t.topic = none → (normalizeThread t m).topic = none) ∧
    (t.parent_id = none → (normalizeThread t m).parent_id = none) ∧
    (t.available_tags = none → (normalizeThread t m).available_tags = none) ∧
    (t.applied_tags = none → (normalizeThread t m).applied_tags = none) ∧
    (t.thread_metadata = none → (normalizeThread t m).thread_metadata = none) ∧
    (normalizeThread t m).member_count = t.member_count ∧
    (normalizeThread t m).message_count = t.message_count ∧
    ((normalizeThread t m).available_tags = none ∨
      ∃ j, t.available_tags = some j ∧
        (normalizeThread t m).available_tags = some (stringify j)) ∧
    ((normalizeThread t m).applied_tags = none ∨
      ∃ j, t.applied_tags = some j ∧
        (normalizeThread t m).applied_tags = some (stringify j)) ∧
    ((normalizeThread t m).thread_metadata = none ∨
      ∃ j, t.thread_metadata = some j ∧
        (normalizeThread t m).thread_metadata = some (stringify j)) := by
  have hser : ∀ x : Option Json, jsonField x = none ∨
      ∃ j, x = some j ∧ jsonField x = some (stringify j) := by
    intro x
    cases x with
    | none => exact Or.inl rfl
    | some j =>
      by_cases hj : jsTruthy j
      · exact Or.inr ⟨j, rfl, by simp [jsonField, hj]⟩
      · exact Or.inl (by simp [jsonField, hj])
  refine ⟨?_, ?_, ?_, ?_, ?_, rfl, rfl, ?_, ?_, ?_⟩
  · intro h
    show jsStr t.topic = none
    rw [h]
    rfl
  · intro h
    show jsStr t.parent_id = none
    rw [h]
    rfl
  · intro h
    show jsonField t.available_tags = none
    rw [h]
    rfl
  · intro h
    show jsonField t.applied_tags = none
    rw [h]
    rfl
  · intro h
    show jsonField t.thread_metadata = none
    rw [h]
    rfl
  · exact hser t.available_tags
  · exact hser t.applied_tags
  · exact hser t.thread_metadata

/-- Witness for C5: a thread with every optional field absent normalizes
to null fields and verbatim absent counters. -/
theorem c5_witness :
    (normalizeThread ⟨"t1", "n", none, none, none, none, none, none, none, none⟩
      []).topic = none ∧
    (normalizeThread ⟨"t1", "n", none, none, none, none, none, none, none, none⟩
      []).member_count = none := by
  have h := c5_null_passthrough
    ⟨"t1", "n", none, none, none, none, none, none, none, none⟩ []
  exact ⟨h.1 rfl, h.2.2.2.2.2.1⟩

/-- Claim C8: the normalization step cannot fail on any input: for every
raw thread (including arbitrary structured payloads) and every member
map, normalizeThread produces a bound row, and processThread can fail
only through the upsert statement — if the store call succeeds the result
is the updated store, and any error it returns is exactly the store
error. -/
theorem c8_normalization_total (o : Oracle) (t : RawThread)
    (m : List (String × String)) (db : DB) :
    (o.storeThread t.id = none →
      processThread o t m db =
        .ok { db with threads := upsertThread db.threads (normalizeThread t m) }) ∧
    (∀ msg, processThread o t m db = .error msg → o.storeThread t.id = some msg) := by
  constructor
  · intro h
    simp [processThread, h]
  · intro msg h
    unfold processThread at h
    cases hs : o.storeThread t.id with
    | none =>
      simp only [hs] at h
      exact absurd h (by simp)
    | some e =>
      simp only [hs] at h
      simp at h
      rw [h]

/-- Witness for C8: with a succeeding store, a thread with malformed
structured payloads still normalizes and is upserted. -/
theorem c8_witness :
    processThread
      ⟨none, none, fun _ => .nonArray, 0, .ok ⟨none⟩, fun _ => none,
        fun _ => .error "x", fun _ _ => none⟩
      ⟨"t1", "n", none, none, none, none, none, some (.num 0), none,
        some (.obj [("deep", .arr [.null])])⟩
      [] ⟨[], []⟩ =
      .ok ⟨[normalizeThread
        ⟨"t1", "n", none, none, none, none, none, some (.num 0), none,
          some (.obj [("deep", .arr [.null])])⟩ []], []⟩ := by
  exact (c8_normalization_total
    ⟨none, none, fun _ => .nonArray, 0, .ok ⟨none⟩, fun _ => none,
      fun _ => .error "x", fun _ _ => none⟩
    ⟨"t1", "n", none, none, none, none, none, some (.num 0), none,
      some (.obj [("deep", .arr [.null])])⟩
    [] ⟨[], []⟩).1 rfl

/-- Claim C7: a channel whose fetch fails is skipped with processing
continuing at the remaining channel ids; a channel whose taxonomy is
empty contributes zero tag rows and is likewise skipped; a failing tag
store aborts only the remainder of that channel; the loop always
continues past the current channel; and the whole tag phase cannot touch
the run result — replacing the channel-fetch and tag-store outcomes by
any others leaves success, threadsProcessed and errors unchanged, so a
tag-sync failure is never fatal and records no error entry. -/
theorem c7_tag_sync_isolation (o : Oracle) (db : DB) (c : String)
    (rest : List String) :
    (∀ e, o.channelResp c = .error e →
      processChannelTags o (c :: rest) db = processChannelTags o rest db) ∧
    (∀ body tags, o.channelResp c = .ok (some body) →
      body.available_tags = some tags → tags.length = 0 →
      processChannelTags o (c :: rest) db = processChannelTags o rest db) ∧
    (∀ tag trest e, o.storeTag c tag.id = some e →
      storeTagsLoop o c (tag :: trest) db = db) ∧
    (processChannelTags o (c :: rest) db =
      processChannelTags o rest (channelStep o db c)) ∧
    (∀ f g, (handleScheduled ⟨o.deleteThreadsFails, o.deleteTagsFails,
        o.memberPages, o.memberFuel, o.fetchThreads, o.storeThread, f, g⟩ db).1 =
      (handleScheduled o db).1) := by
  refine ⟨?_, ?_, ?_, rfl, ?_⟩
  · intro e he
    show processChannelTags o rest (channelStep o db c) = processChannelTags o rest db
    rw [show channelStep o db c = db from by simp [channelStep, he]]
  · intro body tags hresp htags hlen
    show processChannelTags o rest (channelStep o db c) = processChannelTags o rest db
    rw [show channelStep o db c = db from by
      simp only [channelStep, hresp, htags]
      rw [if_neg (by omega)]]
  · intro tag trest e he
    simp [storeTagsLoop, he]
  · intro f g
    unfold handleScheduled
    dsimp only
    cases o.fetchThreads with
    | error msg => rfl
    | ok resp =>
      obtain ⟨thrs⟩ := resp
      cases thrs with
      | none => rfl
      | some ts =>
        dsimp only
        by_cases hlen : 0 < ts.length
        · rw [if_pos hlen, if_pos hlen]
          rw [show clearPhase ⟨o.deleteThreadsFails, o.deleteTagsFails, o.memberPages,
            o.memberFuel, .ok ⟨some ts⟩, o.storeThread, f, g⟩ db = clearPhase o db
            from rfl]
          rw [threadLoop_storeEq ⟨o.deleteThreadsFails, o.deleteTagsFails, o.memberPages,
            o.memberFuel, .ok ⟨some ts⟩, o.storeThread, f, g⟩ o rfl
            (fetchAllGuildMembers o.memberPages o.memberFuel) ts 0 [] (clearPhase o db)]
          cases threadLoop o (fetchAllGuildMembers o.memberPages o.memberFuel) ts 0 []
              (clearPhase o db) with
          | threw n ps db2 msg => rfl
          | done n ps db2 => rfl
        · rw [if_neg hlen, if_neg hlen]

/-- Witness for C7: a channel that fails to fetch is skipped and the next
channel id is still processed. -/
theorem c7_witness :
    processChannelTags
      ⟨none, none, fun _ => .nonArray, 0, .ok ⟨none⟩, fun _ => none,
        fun _ => .error "unknown channel", fun _ _ => none⟩
      ["c1", "c2"] ⟨[], []⟩ =
    processChannelTags
      ⟨none, none, fun _ => .nonArray, 0, .ok ⟨none⟩, fun _ => none,
        fun _ => .error "unknown channel", fun _ _ => none⟩
      ["c2"] ⟨[], []⟩ :=
  (c7_tag_sync_isolation
    ⟨none, none, fun _ => .nonArray, 0, .ok ⟨none⟩, fun _ => none,
      fun _ => .error "unknown channel", fun _ _ => none⟩
    ⟨[], []⟩ "c1" ["c2"]).1 "unknown channel" rfl

/-- Claim C1 counterexample: with two fetched threads where the first
store fails, the run aborts — the second thread is never processed or
upserted (the final thread table is empty), the aggregate success flag is
false, threadsProcessed is 0, and the single recorded error holds only
the message with no thread id. This refutes the claim that a per-item
failure leaves the batch running and success true. -/
theorem c1_counterexample :
    handleScheduled
      ⟨none, none, fun _ => .nonArray, 1,
        .ok ⟨some [⟨"A", "a", none, none, some "P", none, none, none, none, none⟩,
          ⟨"B", "b", none, none, some "P", none, none, none, none, none⟩]⟩,
        fun i => if i = "A" then some "boom" else none,
        fun _ => .error "x", fun _ _ => none⟩
      ⟨[], []⟩ =
    (⟨false, 0, ["boom"]⟩, ⟨[], []⟩) := by
  rfl

/-- Claim C1 (amended): a failure while storing a single thread aborts
the remainder of the batch: the exception reaches the top-level handler,
which sets success to false and records one message-only error entry;
threadsProcessed counts exactly the threads stored before the failure;
the store holds exactly the rows of those prior threads; and neither the
remaining threads nor the tag phase run. -/
theorem c1_item_failure_aborts_batch (o : Oracle) (db : DB)
    (pre : List RawThread) (bad : RawThread) (post : List RawThread) (msg : String)
    (hf : o.fetchThreads = .ok ⟨some (pre ++ bad :: post)⟩)
    (hpre : ∀ t ∈ pre, o.storeThread t.id = none)
    (hbad : o.storeThread bad.id = some msg) :
    handleScheduled o db =
      (⟨false, pre.length, [msg]⟩,
        ⟨rowFold (fetchAllGuildMembers o.memberPages o.memberFuel) pre
          (clearPhase o db).threads, (clearPhase o db).tags⟩) := by
  unfold handleScheduled
  rw [hf]
  dsimp only
  have hlen : 0 < (pre ++ bad :: post).length := by simp
  rw [if_pos hlen]
  rw [threadLoop_first_fail o (fetchAllGuildMembers o.memberPages o.memberFuel)
    pre bad post 0 [] (clearPhase o db) msg hpre hbad]
  dsimp only
  simp

/-- Witness for C1: a batch of two threads whose second store fails ends
with success false, one processed thread, the message-only error, and
only the first row stored. -/
theorem c1_witness :
    handleScheduled
      ⟨none, none, fun _ => .nonArray, 1,
        .ok ⟨some [⟨"A", "a", none, none, some "P", none, none, none, none, none⟩,
          ⟨"B", "b", none, none, some "P", none, none, none, none, none⟩]⟩,
        fun i => if i = "B" then some "boom" else none,
        fun _ => .error "x", fun _ _ => none⟩
      ⟨[], []⟩ =
    (⟨false, 1, ["boom"]⟩,
      ⟨[normalizeThread ⟨"A", "a", none, none, some "P", none, none, none, none, none⟩ []],
        []⟩) :=
  c1_item_failure_aborts_batch
    ⟨none, none, fun _ => .nonArray, 1,
      .ok ⟨some [⟨"A", "a", none, none, some "P", none, none, none, none, none⟩,
        ⟨"B", "b", none, none, some "P", none, none, none, none, none⟩]⟩,
      fun i => if i = "B" then some "boom" else none,
      fun _ => .error "x", fun _ _ => none⟩
    ⟨[], []⟩
    [⟨"A", "a", none, none, some "P", none, none, none, none, none⟩]
    ⟨"B", "b", none, none, some "P", none, none, none, none, none⟩
    [] "boom" rfl (by decide) rfl

/-- Claim C2 counterexample: when the initial DELETE fails (a tolerated
failure), a stale pre-existing row survives a run that completes with
success true on an empty fetch: the thread table does not mirror the
latest fetch even though no top-level failure occurred, refuting the
claim as stated. -/
theorem c2_counterexample :
    handleScheduled
      ⟨some "database locked", none, fun _ => .nonArray, 1, .ok ⟨some []⟩,
        fun _ => none, fun _ => .error "x", fun _ _ => none⟩
      ⟨[⟨"S", "stale", none, none, none, none, none, none, none, none, none⟩], []⟩ =
    (⟨true, 0, []⟩,
      ⟨[⟨"S", "stale", none, none, none, none, none, none, none, none, none⟩], []⟩) := by
  rfl

/-- Claim C2 (amended): the run attempts to delete all rows of both
tables before any thread is written; when both deletes succeed and every
store call of the batch succeeds, the run reports success with no errors
and the thread table afterwards has exactly one row per thread id of the
fetch: a key is present exactly when it is the id of a fetched thread,
and keys never repeat. -/
theorem c2_clear_then_repopulate (o : Oracle) (db : DB) (ts : List RawThread)
    (hd1 : o.deleteThreadsFails = none) (hd2 : o.deleteTagsFails = none)
    (hf : o.fetchThreads = .ok ⟨some ts⟩)
    (hs : ∀ t ∈ ts, o.storeThread t.id = none) :
    (handleScheduled o db).1.success = true ∧
    (handleScheduled o db).1.errors = [] ∧
    (∀ id, id ∈ (handleScheduled o db).2.threads.map BoundRow.thread_id ↔
      id ∈ ts.map RawThread.id) ∧
    ((handleScheduled o db).2.threads.map BoundRow.thread_id).Nodup := by
  have hc : clearPhase o db = ⟨[], []⟩ := by
    simp [clearPhase, hd1, hd2]
  have key : (handleScheduled o db).1 = ⟨true, ts.length, []⟩ ∧
      (handleScheduled o db).2.threads =
        rowFold (fetchAllGuildMembers o.memberPages o.memberFuel) ts [] := by
    unfold handleScheduled
    rw [hf]
    dsimp only
    by_cases hlen : 0 < ts.length
    · rw [if_pos hlen, hc]
      rw [threadLoop_all_ok o (fetchAllGuildMembers o.memberPages o.memberFuel)
        ts 0 [] ⟨[], []⟩ hs]
      dsimp only
      constructor
      · simp
      · by_cases hp : 0 < (parentFold ts []).length
        · simp only [if_pos hp]
          rw [processChannelTags_threads]
        · simp only [if_neg hp]
    · rw [if_neg hlen]
      have h0 : ts = [] := by
        cases ts with
        | nil => rfl
        | cons a l => simp at hlen
      subst h0
      refine ⟨rfl, ?_⟩
      rw [hc]
      rfl
  refine ⟨?_, ?_, ?_, ?_⟩
  · rw [key.1]
  · rw [key.1]
  · intro id
    rw [key.2, mem_rowFold_keys]
    simp
  · rw [key.2]
    exact rowFold_nodup _ _ _ (by simp)

/-- Witness for C2: with succeeding deletes and one fetched thread, the
run succeeds and the table holds exactly that thread id, replacing the
stale row that was present before the run. -/
theorem c2_witness :
    (handleScheduled
      ⟨none, none, fun _ => .nonArray, 1,
        .ok ⟨some [⟨"A", "a", none, none, none, none, none, none, none, none⟩]⟩,
        fun _ => none, fun _ => .error "x", fun _ _ => none⟩
      ⟨[⟨"S", "stale", none, none, none, none, none, none, none, none, none⟩],
        []⟩).1.success = true ∧
    ("S" ∈ ((handleScheduled
      ⟨none, none, fun _ => .nonArray, 1,
        .ok ⟨some [⟨"A", "a", none, none, none, none, none, none, none, none⟩]⟩,
        fun _ => none, fun _ => .error "x", fun _ _ => none⟩
      ⟨[⟨"S", "stale", none, none, none, none, none, none, none, none, none⟩],
        []⟩).2.threads.map BoundRow.thread_id) ↔
      "S" ∈ ([⟨"A", "a", none, none, none, none, none, none, none, none⟩] :
        List RawThread).map RawThread.id) := by
  have h := c2_clear_then_repopulate
    ⟨none, none, fun _ => .nonArray, 1,
      .ok ⟨some [⟨"A", "a", none, none, none, none, none, none, none, none⟩]⟩,
      fun _ => none, fun _ => .error "x", fun _ _ => none⟩
    ⟨[⟨"S", "stale", none, none, none, none, none, none, none, none, none⟩], []⟩
    [⟨"A", "a", none, none, none, none, none, none, none, none⟩]
    rfl rfl rfl (by decide)
  exact ⟨h.1, h.2.2.1 "S"⟩

/-- Claim C10: a failure of the initial DELETE statements is tolerated:
the handler logs it and the run continues through member resolution,
thread processing and tag synchronization — with the remaining calls
succeeding, the run reports success true, no error entry at all, every
fetched thread processed, and the upserts applied to the uncleared
table. -/
theorem c10_clear_failure_tolerated (o : Oracle) (db : DB) (dmsg : String)
    (ts : List RawThread)
    (hd : o.deleteThreadsFails = some dmsg)
    (hf : o.fetchThreads = .ok ⟨some ts⟩)
    (hs : ∀ t ∈ ts, o.storeThread t.id = none) :
    (handleScheduled o db).1 = ⟨true, ts.length, []⟩ ∧
    (handleScheduled o db).2.threads =
      rowFold (fetchAllGuildMembers o.memberPages o.memberFuel) ts db.threads := by
  have hcp : clearPhase o db = db := by
    simp [clearPhase, hd]
  unfold handleScheduled
  rw [hf]
  dsimp only
  by_cases hlen : 0 < ts.length
  · rw [if_pos hlen, hcp]
    rw [threadLoop_all_ok o (fetchAllGuildMembers o.memberPages o.memberFuel)
      ts 0 [] db hs]
    dsimp only
    constructor
    · simp
    · by_cases hp : 0 < (parentFold ts []).length
      · simp only [if_pos hp]
        rw [processChannelTags_threads]
      · simp only [if_neg hp]
  · rw [if_neg hlen]
    have h0 : ts = [] := by
      cases ts with
      | nil => rfl
      | cons a l => simp at hlen
    subst h0
    refine ⟨rfl, ?_⟩
    rw [hcp]
    rfl

/-- Witness for C10: a run whose DELETE fails still processes its one
fetched thread and reports success with no errors. -/
theorem c10_witness :
    (handleScheduled
      ⟨some "database locked", none, fun _ => .failure "Missing Access", 1,
        .ok ⟨some [⟨"t1", "n", none, none, none, none, none, none, none, none⟩]⟩,
        fun _ => none, fun _ => .error "x", fun _ _ => none⟩
      ⟨[], []⟩).1 = ⟨true, 1, []⟩ :=
  (c10_clear_failure_tolerated
    ⟨some "database locked", none, fun _ => .failure "Missing Access", 1,
      .ok ⟨some [⟨"t1", "n", none, none, none, none, none, none, none, none⟩]⟩,
      fun _ => none, fun _ => .error "x", fun _ _ => none⟩
    ⟨[], []⟩ "database locked"
    [⟨"t1", "n", none, none, none, none, none, none, none, none⟩]
    rfl rfl (by decide)).1

end ThreadTracker
